import Mathlib

/-!
Verification of the flowerpot-booking transactional core.

This file gives a shallow embedding of the in-memory repository layer
(`core/memory_repositories.py`), the snapshot-based Unit-of-Work
(`core/memory_unit_of_work.py`), the entity classes, and the orchestrating
use cases (`CancelBooking`, `CreateBooking`, `RegisterGuardian`,
`PreventDuplicateBooking`), and proves the stated properties about them.

Conventions of the embedding:
* Python `dict[int, Entity]` becomes an insertion-ordered association list
  (`Dict`): a new key is appended at the end, an existing key is overwritten
  in place, matching CPython dict ordering which the code's `get_all`
  iteration depends on.
* Python integers are `Int` (they are unbounded and may go negative);
  identifiers handed out by repositories are `Nat` wrapped in `Option`
  (`None` = unset).
* Methods that mutate `self` become functions returning the updated value
  (paired with the Python return value where there is one).
* Methods that raise (`commit`/`rollback` on an idle Unit-of-Work raise
  `ValueError`) return `Except String Unit` paired with the state; the
  `error` case corresponds to the exception propagating with the object
  left exactly as it was (the `raise` happens before any mutation).
* `deepcopy` on plain values is the identity in a value-level model; the
  aliasing content of the copy-isolation property is treated separately
  with an explicit heap model (see the `HeapModel` section below).
-/

set_option maxHeartbeats 1000000

namespace Flowerpot

/-- Python `dict[int, α]`: insertion-ordered association list. -/
abbrev Dict (α : Type) := List (Nat × α)

namespace Dict

/-- `d.get(k)` — first binding wins (keys are unique in reachable states). -/
def get {α : Type} : Dict α → Nat → Option α
  | [], _ => none
  | p :: rest, k => if p.1 == k then some p.2 else get rest k

/-- `k in d`. -/
def hasKey {α : Type} (d : Dict α) (k : Nat) : Bool :=
  d.any (fun p => p.1 == k)

/-- `d[k] = v`: overwrite in place when the key exists, else append
(CPython dicts keep the original insertion position on overwrite). -/
def set {α : Type} : Dict α → Nat → α → Dict α
  | [], k, v => [(k, v)]
  | p :: rest, k, v =>
      if p.1 == k then (k, v) :: rest else p :: set rest k v

/-- `del d[k]`. -/
def erase {α : Type} : Dict α → Nat → Dict α
  | [], _ => []
  | p :: rest, k => if p.1 == k then rest else p :: erase rest k

/-- `d.values()` in insertion order. -/
def values {α : Type} (d : Dict α) : List α :=
  d.map Prod.snd

end Dict

/-! ## Python string primitives

Modelled over the underlying character list so that they are fully
executable inside the kernel. -/

/-- Whitespace removed by Python `str.strip()`. -/
def isPySpace (c : Char) : Bool :=
  c == ' ' || c == '\t' || c == '\n' || c == '\r' || c == '\x0b' || c == '\x0c'

/-- Python `s.strip()`. -/
def pyStrip (s : String) : String :=
  String.mk (((s.data.dropWhile isPySpace).reverse.dropWhile isPySpace).reverse)

/-- Python `s.lower()` (ASCII case folding, which covers the emails here). -/
def pyLower (s : String) : String :=
  String.mk (s.data.map Char.toLower)

/-- Python `c in s` for a single-character needle. -/
def pyContains (s : String) (c : Char) : Bool :=
  s.data.contains c

/-! ## Entities (`WorkshopEntity.py`, `BookingEntity.py`, `GuardianEntity.py`) -/

/-- `core/workshops/WorkshopEntity.py`. Counters are Python ints: `Int`. -/
structure WorkshopEntity where
  id : Option Nat := none
  title : String := ""
  date : Option String := none
  time : Option String := none
  location : String := ""
  max_families : Int := 0
  max_children : Int := 0
  current_families : Int := 0
  current_children : Int := 0
  deriving Repr, DecidableEq

namespace WorkshopEntity

/-- `has_family_capacity`. -/
def has_family_capacity (w : WorkshopEntity) : Bool :=
  w.current_families < w.max_families

/-- `has_child_capacity`. -/
def has_child_capacity (w : WorkshopEntity) : Bool :=
  w.current_children < w.max_children

/-- `add_family`: returns (Python return value, updated self). -/
def add_family (w : WorkshopEntity) : Bool × WorkshopEntity :=
  if !w.has_family_capacity then (false, w)
  else (true, { w with current_families := w.current_families + 1 })

/-- `add_children(count)`. -/
def add_children (w : WorkshopEntity) (count : Int) : Bool × WorkshopEntity :=
  if w.current_children + count > w.max_children then (false, w)
  else (true, { w with current_children := w.current_children + count })

/-- `remove_family`. -/
def remove_family (w : WorkshopEntity) : Bool × WorkshopEntity :=
  if w.current_families > 0 then
    (true, { w with current_families := w.current_families - 1 })
  else (false, w)

/-- `remove_children(count)`. -/
def remove_children (w : WorkshopEntity) (count : Int) : Bool × WorkshopEntity :=
  if w.current_children ≥ count then
    (true, { w with current_children := w.current_children - count })
  else (false, w)

/-- `remaining_family_slots`: `max(0, max_families - current_families)`. -/
def remaining_family_slots (w : WorkshopEntity) : Int :=
  max 0 (w.max_families - w.current_families)

/-- `remaining_child_slots`: `max(0, max_children - current_children)`. -/
def remaining_child_slots (w : WorkshopEntity) : Int :=
  max 0 (w.max_children - w.current_children)

end WorkshopEntity

/-- `Child` value object from `BookingEntity.py`. -/
structure Child where
  name : String := ""
  age : Int := 0
  deriving Repr, DecidableEq

/-- `core/bookings/BookingEntity.py`. -/
structure BookingEntity where
  id : Option Nat := none
  workshop_id : Option Nat := none
  guardian_id : Option Nat := none
  children : List Child := []
  status : String := "active"
  cancellation_reason : Option String := none
  deriving Repr, DecidableEq

namespace BookingEntity

/-- `add_child(name, age)` (drops the returned Child, keeps the update). -/
def add_child (b : BookingEntity) (name : String) (age : Int) : BookingEntity :=
  { b with children := b.children ++ [⟨name, age⟩] }

/-- `child_count`. -/
def child_count (b : BookingEntity) : Nat :=
  b.children.length

/-- `mark_as_cancelled(reason)`. -/
def mark_as_cancelled (b : BookingEntity) (reason : Option String) : BookingEntity :=
  { b with status := "cancelled", cancellation_reason := reason }

/-- `is_cancelled`. -/
def is_cancelled (b : BookingEntity) : Bool :=
  b.status == "cancelled"

/-- `is_active`. -/
def is_active (b : BookingEntity) : Bool :=
  b.status == "active"

end BookingEntity

/-- `core/guardians/GuardianEntity.py`. -/
structure GuardianEntity where
  id : Option Nat := none
  name : String := ""
  email : String := ""
  phone : String := ""
  postcode : String := ""
  deriving Repr, DecidableEq

/-! ## In-memory repositories (`memory_repositories.py`) -/

/-- Access to the `id` attribute used generically by `InMemoryRepository.save`. -/
class EntityId (α : Type) where
  getId : α → Option Nat
  setId : α → Nat → α

instance : EntityId WorkshopEntity where
  getId w := w.id
  setId w i := { w with id := some i }

instance : EntityId BookingEntity where
  getId b := b.id
  setId b i := { b with id := some i }

instance : EntityId GuardianEntity where
  getId g := g.id
  setId g i := { g with id := some i }

/-- Python truthiness of the `id` attribute: `None` and `0` are falsy. -/
def idTruthy : Option Nat → Bool
  | none => false
  | some n => n != 0

/-- State of one `InMemoryRepository`: `_entities` dict and `_next_id`. -/
structure RepoState (α : Type) where
  entities : Dict α := []
  next_id : Nat := 1
  deriving Repr, DecidableEq

namespace RepoState

/-- `get_by_id` (the `deepcopy` returns an equal value). -/
def get_by_id {α : Type} (s : RepoState α) (i : Nat) : Option α :=
  s.entities.get i

/-- `get_all`. -/
def get_all {α : Type} (s : RepoState α) : List α :=
  s.entities.values

/-- `save`: falsy id ⟹ assign `_next_id` and insert; truthy id ⟹ overwrite.
Returns (returned entity, updated repository). -/
def save {α : Type} [EntityId α] (s : RepoState α) (e : α) : α × RepoState α :=
  if idTruthy (EntityId.getId e) then
    match EntityId.getId e with
    | some k => (e, { s with entities := s.entities.set k e })
    | none => (e, s)   -- impossible: a truthy id is a nonzero `some`
  else
    let e' := EntityId.setId e s.next_id
    (e', { entities := s.entities.set s.next_id e', next_id := s.next_id + 1 })

/-- `delete`: returns (Python return value, updated repository). -/
def delete {α : Type} (s : RepoState α) (i : Nat) : Bool × RepoState α :=
  if s.entities.hasKey i then (true, { s with entities := s.entities.erase i })
  else (false, s)

end RepoState

/-! ## Unit of Work (`memory_unit_of_work.py`) -/

/-- Full state of an `InMemoryUnitOfWork`. -/
structure UowState where
  workshops : RepoState WorkshopEntity := {}
  bookings : RepoState BookingEntity := {}
  guardians : RepoState GuardianEntity := {}
  workshop_snapshots : Dict WorkshopEntity := []
  booking_snapshots : Dict BookingEntity := []
  guardian_snapshots : Dict GuardianEntity := []
  is_active : Bool := false
  deriving Repr, DecidableEq

namespace UowState

/-- `__enter__`: `_take_snapshots()` then `_is_active = True`. -/
def enter (s : UowState) : UowState :=
  { s with
    workshop_snapshots := s.workshops.entities
    booking_snapshots := s.bookings.entities
    guardian_snapshots := s.guardians.entities
    is_active := true }

/-- `commit`: raises `ValueError` when idle, otherwise clears the snapshots
and resets `_is_active`. The `error` case leaves the object untouched. -/
def commit (s : UowState) : Except String Unit × UowState :=
  if s.is_active then
    (Except.ok ⟨⟩,
      { s with
        workshop_snapshots := []
        booking_snapshots := []
        guardian_snapshots := []
        is_active := false })
  else (Except.error "Cannot commit - no active transaction", s)

/-- `rollback`: raises `ValueError` when idle, otherwise restores every
`_entities` dict from its snapshot (`_next_id` is NOT restored) and clears
the snapshots. -/
def rollback (s : UowState) : Except String Unit × UowState :=
  if s.is_active then
    (Except.ok ⟨⟩,
      { s with
        workshops := { s.workshops with entities := s.workshop_snapshots }
        bookings := { s.bookings with entities := s.booking_snapshots }
        guardians := { s.guardians with entities := s.guardian_snapshots }
        workshop_snapshots := []
        booking_snapshots := []
        guardian_snapshots := []
        is_active := false })
  else (Except.error "Cannot rollback - no active transaction", s)

/-- `__exit__(exc_type, …)`: on an exception it calls `rollback()` (whose own
`ValueError`, if raised, propagates and skips the last line), then
unconditionally sets `_is_active = False`. -/
def exitScope (exc : Bool) (s : UowState) : Except String Unit × UowState :=
  if exc then
    match s.rollback with
    | (Except.ok _, s') => (Except.ok ⟨⟩, { s' with is_active := false })
    | (Except.error e, s') => (Except.error e, s')
  else (Except.ok ⟨⟩, { s with is_active := false })

end UowState

/-! ## Use case: CancelBooking (`bookings/use_cases/CancelBooking.py`) -/

/-- `CancellerType` enum. -/
inductive CancellerType where
  | admin
  | guardian
  deriving Repr, DecidableEq

/-- `CancelBookingInputDTO`. -/
structure CancelBookingInputDTO where
  booking_id : Nat
  canceller_id : Nat
  canceller_type : CancellerType
  reason : Option String := none
  deriving Repr, DecidableEq

/-- `CancelBookingOutputDTO`. -/
structure CancelBookingOutputDTO where
  success : Bool
  error_message : Option String := none
  deriving Repr, DecidableEq

namespace CancelBookingUseCase

/-- `_validate_canceller`: admin always; guardian only for their own booking
(`booking.guardian_id == input_dto.canceller_id`; a `None` guardian_id never
equals an int). -/
def validate_canceller (booking : BookingEntity)
    (inp : CancelBookingInputDTO) : Bool :=
  match inp.canceller_type with
  | CancellerType.admin => true
  | CancellerType.guardian => booking.guardian_id == some inp.canceller_id

/-- `CancelBookingUseCase.execute`. An early `return` inside the `with` block
runs `__exit__(None)`; the notification helpers (steps 6-7) and the guardian
lookup are read-only and have no state effect. -/
def execute (inp : CancelBookingInputDTO) (s : UowState) :
    CancelBookingOutputDTO × UowState :=
  let s1 := s.enter
  match s1.bookings.get_by_id inp.booking_id with
  | none =>
      (⟨false, some "Booking not found"⟩, (s1.exitScope false).2)
  | some booking =>
      if !validate_canceller booking inp then
        (⟨false, some "You do not have permission to cancel this booking"⟩,
          (s1.exitScope false).2)
      else
        match booking.workshop_id.bind (fun wid => s1.workshops.get_by_id wid) with
        | none =>
            (⟨false, some "Workshop not found"⟩, (s1.exitScope false).2)
        | some workshop =>
            -- step 4: `workshop.current_children -= child_count` (unconditional),
            -- then `workshop.remove_family()` (floored at 0), then save
            let w1 := { workshop with
              current_children := workshop.current_children - (booking.child_count : Int) }
            let w2 := w1.remove_family.2
            let wrepo := (s1.workshops.save w2).2
            let s2 := { s1 with workshops := wrepo }
            -- step 5: mark cancelled and save
            let booking' := booking.mark_as_cancelled inp.reason
            let brepo := (s2.bookings.save booking').2
            let s3 := { s2 with bookings := brepo }
            -- steps 6-7: guardian lookup + notifications (no state effect)
            let s4 := s3.commit.2
            (⟨true, none⟩, (s4.exitScope false).2)

end CancelBookingUseCase

/-! ## Use case: CreateBooking (`bookings/use_cases/CreateBooking.py`) -/

/-- `CreateBookingInputDTO`; the child dicts are modelled as `Child` values
(`name`/`age` keys are present by typing). -/
structure CreateBookingInputDTO where
  workshop_id : Nat
  guardian_name : String
  guardian_email : String
  guardian_phone : String
  guardian_postcode : String
  children : List Child
  deriving Repr, DecidableEq

/-- `CreateBookingOutputDTO`. -/
structure CreateBookingOutputDTO where
  success : Bool
  booking_id : Option Nat := none
  error_message : Option String := none
  deriving Repr, DecidableEq

namespace CreateBookingUseCase

/-- `_validate_input` (the `isinstance(age, int)` check holds by typing). -/
def validate_input (inp : CreateBookingInputDTO) : Bool :=
  pyStrip inp.guardian_name != "" &&
  (pyStrip inp.guardian_email != "" && pyContains inp.guardian_email '@') &&
  pyStrip inp.guardian_phone != "" &&
  pyStrip inp.guardian_postcode != "" &&
  !inp.children.isEmpty &&
  inp.children.all (fun c => pyStrip c.name != "" && c.age > 0)

/-- `CreateBookingUseCase.execute`. -/
def execute (inp : CreateBookingInputDTO) (s : UowState) :
    CreateBookingOutputDTO × UowState :=
  if !validate_input inp then
    (⟨false, none, some "Invalid booking data provided"⟩, s)
  else
    let s1 := s.enter
    match s1.workshops.get_by_id inp.workshop_id with
    | none =>
        (⟨false, none, some "Workshop not found"⟩, (s1.exitScope false).2)
    | some workshop =>
        let child_count : Int := inp.children.length
        if !workshop.has_family_capacity then
          (⟨false, none, some "Workshop has no family capacity left"⟩,
            (s1.exitScope false).2)
        else if workshop.current_children + child_count > workshop.max_children then
          (⟨false, none, some "Workshop has insufficient child capacity"⟩,
            (s1.exitScope false).2)
        else
          -- step 3: always saves a fresh guardian (no dedup here)
          let guardian : GuardianEntity :=
            { name := inp.guardian_name, email := inp.guardian_email,
              phone := inp.guardian_phone, postcode := inp.guardian_postcode }
          let gsave := s1.guardians.save guardian
          let s2 := { s1 with guardians := gsave.2 }
          -- steps 4-5: build the booking and add each child
          let booking0 : BookingEntity :=
            { workshop_id := workshop.id, guardian_id := gsave.1.id }
          let booking :=
            inp.children.foldl (fun b c => b.add_child c.name c.age) booking0
          let bsave := s2.bookings.save booking
          let s3 := { s2 with bookings := bsave.2 }
          -- step 6: `workshop.add_family()` then unconditional child increment
          let w1 := workshop.add_family.2
          let w2 := { w1 with current_children := w1.current_children + child_count }
          let wrepo := (s3.workshops.save w2).2
          let s4 := { s3 with workshops := wrepo }
          let s5 := s4.commit.2
          (⟨true, bsave.1.id, none⟩, (s5.exitScope false).2)

end CreateBookingUseCase

/-! ## Use case: RegisterGuardian (`guardians/use_cases/RegisterGuardian.py`) -/

/-- `RegisterGuardianInputDTO`. -/
structure RegisterGuardianInputDTO where
  name : String
  email : String
  phone : String
  postcode : String
  deriving Repr, DecidableEq

/-- `RegisterGuardianOutputDTO`. -/
structure RegisterGuardianOutputDTO where
  success : Bool
  guardian_id : Option Nat := none
  error_message : Option String := none
  deriving Repr, DecidableEq

namespace RegisterGuardianUseCase

/-- `_validate_input`. -/
def validate_input (inp : RegisterGuardianInputDTO) : Bool :=
  pyStrip inp.name != "" &&
  (pyStrip inp.email != "" && pyContains inp.email '@') &&
  pyStrip inp.phone != "" &&
  pyStrip inp.postcode != ""

/-- `_find_by_email`: first guardian (insertion order of `get_all`) whose
stored email equals the query email case-insensitively. -/
def find_by_email (gs : RepoState GuardianEntity) (email : String) :
    Option GuardianEntity :=
  gs.get_all.find? (fun g => pyLower g.email == pyLower email)

/-- `RegisterGuardianUseCase.execute`. -/
def execute (inp : RegisterGuardianInputDTO) (s : UowState) :
    RegisterGuardianOutputDTO × UowState :=
  if !validate_input inp then
    (⟨false, none, some "Invalid guardian data provided"⟩, s)
  else
    let s1 := s.enter
    match find_by_email s1.guardians inp.email with
    | some existing =>
        (⟨true, existing.id, none⟩, (s1.exitScope false).2)
    | none =>
        let guardian : GuardianEntity :=
          { name := inp.name, email := inp.email,
            phone := inp.phone, postcode := inp.postcode }
        let gsave := s1.guardians.save guardian
        let s2 := { s1 with guardians := gsave.2 }
        let s3 := s2.commit.2
        (⟨true, gsave.1.id, none⟩, (s3.exitScope false).2)

end RegisterGuardianUseCase

/-! ## Use case: PreventDuplicateBooking
(`bookings/use_cases/PreventDuplicateBooking.py`) -/

/-- `PreventDuplicateBookingInputDTO` (`workshop_id = 0` is Python-falsy). -/
structure PreventDuplicateBookingInputDTO where
  guardian_email : String
  workshop_id : Nat
  deriving Repr, DecidableEq

/-- `PreventDuplicateBookingOutputDTO`. -/
structure PreventDuplicateBookingOutputDTO where
  is_duplicate : Bool
  error_message : Option String := none
  deriving Repr, DecidableEq

namespace PreventDuplicateBookingUseCase

/-- `_find_guardians_by_email`. -/
def find_guardians_by_email (gs : RepoState GuardianEntity) (email : String) :
    List GuardianEntity :=
  gs.get_all.filter (fun g => pyLower g.email == pyLower email)

/-- `_has_existing_booking` (called with `guardian.id`, which may be `None`). -/
def has_existing_booking (bs : RepoState BookingEntity)
    (guardian_id : Option Nat) (workshop_id : Nat) : Bool :=
  decide (0 < (bs.get_all.filter (fun b =>
    b.guardian_id == guardian_id && b.workshop_id == some workshop_id &&
    b.is_active)).length)

/-- `PreventDuplicateBookingUseCase.execute`. The `for guardian in guardians`
loop returning on the first hit is `List.any`. -/
def execute (inp : PreventDuplicateBookingInputDTO) (s : UowState) :
    PreventDuplicateBookingOutputDTO × UowState :=
  let s1 := s.enter
  if inp.guardian_email == "" || inp.workshop_id == 0 then
    (⟨false, some "Invalid input: email and workshop ID must be provided"⟩,
      (s1.exitScope false).2)
  else
    match s1.workshops.get_by_id inp.workshop_id with
    | none =>
        (⟨false, some "Workshop not found"⟩, (s1.exitScope false).2)
    | some _ =>
        let gs := find_guardians_by_email s1.guardians inp.guardian_email
        if gs.isEmpty then
          (⟨false, none⟩, (s1.exitScope false).2)
        else if gs.any (fun g => has_existing_booking s1.bookings g.id inp.workshop_id) then
          (⟨true, some "Guardian already has a booking for this workshop"⟩,
            (s1.exitScope false).2)
        else
          (⟨false, none⟩, (s1.exitScope false).2)

end PreventDuplicateBookingUseCase

/-! ## Operation traces over the Unit of Work -/

/-- A freshly constructed `InMemoryUnitOfWork()`. -/
def initUow : UowState := {}

/-- One mutating repository call available to an operation body. -/
inductive MutOp where
  | saveWorkshop (w : WorkshopEntity)
  | saveBooking (b : BookingEntity)
  | saveGuardian (g : GuardianEntity)
  | deleteWorkshop (i : Nat)
  | deleteBooking (i : Nat)
  | deleteGuardian (i : Nat)
  deriving Repr

/-- Effect of a mutating repository call on the Unit-of-Work state. -/
def applyMut : MutOp → UowState → UowState
  | MutOp.saveWorkshop w, s => { s with workshops := (s.workshops.save w).2 }
  | MutOp.saveBooking b, s => { s with bookings := (s.bookings.save b).2 }
  | MutOp.saveGuardian g, s => { s with guardians := (s.guardians.save g).2 }
  | MutOp.deleteWorkshop i, s => { s with workshops := (s.workshops.delete i).2 }
  | MutOp.deleteBooking i, s => { s with bookings := (s.bookings.delete i).2 }
  | MutOp.deleteGuardian i, s => { s with guardians := (s.guardians.delete i).2 }

/-- A whole operation body: a sequence of mutating repository calls. -/
def applyMuts (ops : List MutOp) (s : UowState) : UowState :=
  ops.foldl (fun t op => applyMut op t) s

/-- A step of a full interleaving: repository mutations plus the transaction
protocol. A `ValueError` from `commit`/`rollback`/`__exit__` leaves the
Unit-of-Work object exactly as it was, so the state component is total. -/
inductive TraceOp where
  | repoCall (m : MutOp)
  | beginTx
  | endTx (exc : Bool)
  | commitTx
  | rollbackTx
  deriving Repr

/-- State effect of one trace step. -/
def stepOp : TraceOp → UowState → UowState
  | TraceOp.repoCall m, s => applyMut m s
  | TraceOp.beginTx, s => s.enter
  | TraceOp.endTx exc, s => (s.exitScope exc).2
  | TraceOp.commitTx, s => s.commit.2
  | TraceOp.rollbackTx, s => s.rollback.2

/-- Unit-of-Work state instrumented with the log of ids each repository's
`save` has assigned to newly inserted entities (ghost data; the repositories
themselves keep only `_next_id`). -/
structure TracedState where
  uow : UowState
  assignedW : List Nat
  assignedB : List Nat
  assignedG : List Nat

/-- Append the id `save` is about to assign, if the entity's id is falsy. -/
def assignLog {α : Type} [EntityId α] (s : RepoState α) (e : α)
    (log : List Nat) : List Nat :=
  if idTruthy (EntityId.getId e) then log else log ++ [s.next_id]

/-- One instrumented trace step. -/
def stepT : TraceOp → TracedState → TracedState
  | TraceOp.repoCall (MutOp.saveWorkshop w), t =>
      { t with uow := applyMut (MutOp.saveWorkshop w) t.uow,
               assignedW := assignLog t.uow.workshops w t.assignedW }
  | TraceOp.repoCall (MutOp.saveBooking b), t =>
      { t with uow := applyMut (MutOp.saveBooking b) t.uow,
               assignedB := assignLog t.uow.bookings b t.assignedB }
  | TraceOp.repoCall (MutOp.saveGuardian g), t =>
      { t with uow := applyMut (MutOp.saveGuardian g) t.uow,
               assignedG := assignLog t.uow.guardians g t.assignedG }
  | op, t => { t with uow := stepOp op t.uow }

/-- Run an instrumented trace from a starting state. -/
def runTrace (ops : List TraceOp) (t : TracedState) : TracedState :=
  ops.foldl (fun t op => stepT op t) t

/-- Fresh Unit of Work with empty assignment logs. -/
def initTraced : TracedState := ⟨initUow, [], [], []⟩

/-! ## Heap model of `deepcopy` isolation (`memory_repositories.py`)

The value-level model above treats `deepcopy` as the identity; the content
of the copy-isolation contract is about aliasing, so it is modelled here
explicitly. A stored entity is an object graph of two heap cells: a
top-level cell with the flat attributes (`σ`) and a reference to a
separately allocated cell holding the entity's owned mutable sub-structure
(`τ`) — for `BookingEntity` the `children` list; for `WorkshopEntity` and
`GuardianEntity` the sub-structure is trivial. `deepcopy` allocates fresh
cells for both levels. -/

/-- A top-level object cell: flat fields plus the owned sub-cell reference. -/
structure HeapObj (σ : Type) where
  flat : σ
  subRef : Nat
  deriving Repr, DecidableEq

/-- The object heap: top-level cells, sub-structure cells, allocation bump. -/
structure Heap (σ τ : Type) where
  objs : Dict (HeapObj σ)
  subs : Dict τ
  nextRef : Nat
  deriving Repr, DecidableEq

namespace Heap

/-- `deepcopy` of the object at `r`: allocate a fresh sub-cell then a fresh
top-level cell; returns the new root reference. -/
def copyObj {σ τ : Type} (h : Heap σ τ) (r : Nat) : Option Nat × Heap σ τ :=
  match h.objs.get r with
  | none => (none, h)
  | some o =>
      match h.subs.get o.subRef with
      | none => (none, h)
      | some t =>
          (some (h.nextRef + 1),
            { objs := h.objs.set (h.nextRef + 1) ⟨o.flat, h.nextRef⟩,
              subs := h.subs.set h.nextRef t,
              nextRef := h.nextRef + 2 })

/-- A caller mutating the object rooted at `r` in place: overwrite its flat
attributes (attribute assignment keeps the object's identity and its
sub-reference) and overwrite its owned sub-cell (e.g. `children.append`). -/
def mutate {σ τ : Type} (h : Heap σ τ) (r : Nat) (fl : σ) (t : τ) : Heap σ τ :=
  match h.objs.get r with
  | none => h
  | some o =>
      { h with objs := h.objs.set r ⟨fl, o.subRef⟩,
               subs := h.subs.set o.subRef t }

/-- One `deepcopy` per root, left to right, threading the heap — the list
comprehension `[deepcopy(entity) for entity in self._entities.values()]`. -/
def copyMany {σ τ : Type} : Heap σ τ → List Nat → List (Option Nat) × Heap σ τ
  | h, [] => ([], h)
  | h, r :: rest =>
      let c := h.copyObj r
      let k := copyMany c.2 rest
      (c.1 :: k.1, k.2)

/-- The two `deepcopy`s `save` performs: the stored copy (cells `nextRef`,
`nextRef + 1`) and the returned copy (cells `nextRef + 2`, `nextRef + 3`),
both with flat fields `FL` and sub-structure `t0`. -/
def afterSave {σ τ : Type} (h : Heap σ τ) (FL : σ) (t0 : τ) : Heap σ τ :=
  { objs := (h.objs.set (h.nextRef + 1) ⟨FL, h.nextRef⟩).set
      (h.nextRef + 3) ⟨FL, h.nextRef + 2⟩,
    subs := (h.subs.set h.nextRef t0).set (h.nextRef + 2) t0,
    nextRef := h.nextRef + 4 }

end Heap

/-- An `InMemoryRepository` with its backing heap: `_entities` maps ids to
root references of stored object graphs. -/
structure HeapRepo (σ τ : Type) where
  entities : Dict Nat
  next_id : Nat
  heap : Heap σ τ
  deriving Repr, DecidableEq

namespace HeapRepo

/-- The entity value observable at id `i` (what a `deepcopy` reproduces). -/
def read {σ τ : Type} (R : HeapRepo σ τ) (i : Nat) : Option (σ × τ) :=
  match R.entities.get i with
  | none => none
  | some r =>
      match R.heap.objs.get r with
      | none => none
      | some o => (R.heap.subs.get o.subRef).map (fun t => (o.flat, t))

/-- `get_by_id`: `deepcopy(self._entities.get(id))` — returns a fresh root
reference into the grown heap; the store itself is untouched. -/
def get_by_id {σ τ : Type} (R : HeapRepo σ τ) (i : Nat) :
    Option Nat × HeapRepo σ τ :=
  match R.entities.get i with
  | none => (none, R)
  | some r =>
      let c := R.heap.copyObj r
      (c.1, { R with heap := c.2 })

/-- `get_all`: one `deepcopy` per stored entity, in insertion order. -/
def get_all {σ τ : Type} (R : HeapRepo σ τ) :
    List (Option Nat) × HeapRepo σ τ :=
  let k := Heap.copyMany R.heap (Dict.values R.entities)
  (k.1, { R with heap := k.2 })

/-- `save(entity)`: `entity_copy = deepcopy(entity)` (cells `n`, `n+1`),
assign `_next_id` into the copy when the argument's id is falsy, store the
copy's root under the id, and return `deepcopy(entity_copy)` (cells `n+2`,
`n+3`) — the stored root and the returned root are distinct objects. -/
def save {σ τ : Type} [EntityId σ] (R : HeapRepo σ τ) (argRoot : Nat) :
    Option Nat × HeapRepo σ τ :=
  match R.heap.objs.get argRoot with
  | none => (none, R)
  | some o =>
      match R.heap.subs.get o.subRef with
      | none => (none, R)
      | some t =>
          if idTruthy (EntityId.getId o.flat) then
            let k := (EntityId.getId o.flat).getD 0
            (some (R.heap.nextRef + 3),
              { entities := R.entities.set k (R.heap.nextRef + 1),
                next_id := R.next_id,
                heap := R.heap.afterSave o.flat t })
          else
            let fl := EntityId.setId o.flat R.next_id
            (some (R.heap.nextRef + 3),
              { entities := R.entities.set R.next_id (R.heap.nextRef + 1),
                next_id := R.next_id + 1,
                heap := R.heap.afterSave fl t })

/-- All stored roots and their sub-references are live below bound `m`. -/
def WFBound {σ τ : Type} (R : HeapRepo σ τ) (m : Nat) : Prop :=
  ∀ p ∈ R.entities, p.2 < m ∧
    ∃ o, R.heap.objs.get p.2 = some o ∧ o.subRef < m

/-- Well-formed repository: everything stored is below the allocation bump.
Holds for every repository built through the API. -/
def WF {σ τ : Type} (R : HeapRepo σ τ) : Prop :=
  R.WFBound R.heap.nextRef

end HeapRepo

/-- Two heaps agree on every cell below `n`. -/
def agreesBelow {σ τ : Type} (n : Nat) (h h' : Heap σ τ) : Prop :=
  ∀ r < n, h'.objs.get r = h.objs.get r ∧ h'.subs.get r = h.subs.get r

/-- The flat part of a `BookingEntity`; the `children` list is the owned
sub-structure living in its own heap cell. -/
structure BookingFlat where
  id : Option Nat := none
  workshop_id : Option Nat := none
  guardian_id : Option Nat := none
  status : String := "active"
  cancellation_reason : Option String := none
  deriving Repr, DecidableEq

instance : EntityId BookingFlat where
  getId b := b.id
  setId b i := { b with id := some i }

/-- The booking repository in the heap model. -/
abbrev BookingHeapRepo := HeapRepo BookingFlat (List Child)

/-- Flat fields of the stored booking in the heap-model scenario. -/
def c6_flat : BookingFlat :=
  { id := some 1, workshop_id := some 1, guardian_id := some 1 }

/-- Heap of the scenario: booking object at ref 10, children cell 11. -/
def c6_heap : Heap BookingFlat (List Child) :=
  { objs := [(10, { flat := c6_flat, subRef := 11 })],
    subs := [(11, [{ name := "A", age := 3 }])],
    nextRef := 12 }

/-- Concrete heap-model booking repository: one stored booking (id 1, one
child) whose object graph lives at refs 10 (object) and 11 (children). -/
def c6_repo : BookingHeapRepo :=
  { entities := [(1, 10)], next_id := 2, heap := c6_heap }

/-! ## Concrete scenario states -/

/-- Workshop for the double-cancellation scenario: capacity 1 family / 2
children, created through the repository inside a committed transaction. -/
def c2_workshop : WorkshopEntity :=
  { title := "w", max_families := 1, max_children := 2 }

/-- State after seeding the workshop in a committed transaction. -/
def c2_seeded : UowState :=
  ((applyMut (MutOp.saveWorkshop c2_workshop) initUow.enter).commit).2

/-- A valid booking request with two children for the seeded workshop. -/
def c2_create_input : CreateBookingInputDTO :=
  { workshop_id := 1, guardian_name := "G", guardian_email := "g@x.com",
    guardian_phone := "1", guardian_postcode := "Z",
    children := [{ name := "A", age := 3 }, { name := "B", age := 5 }] }

/-- Result of creating the booking. -/
def c2_created : CreateBookingOutputDTO × UowState :=
  CreateBookingUseCase.execute c2_create_input c2_seeded

/-- Admin cancellation request for booking 1. -/
def c2_cancel_input : CancelBookingInputDTO :=
  { booking_id := 1, canceller_id := 99,
    canceller_type := CancellerType.admin }

/-- Result of the first cancellation. -/
def c2_cancel1 : CancelBookingOutputDTO × UowState :=
  CancelBookingUseCase.execute c2_cancel_input c2_created.2

/-- Result of cancelling the same, already cancelled, booking again. -/
def c2_cancel2 : CancelBookingOutputDTO × UowState :=
  CancelBookingUseCase.execute c2_cancel_input c2_cancel1.2

/-- State after a transaction scope that saved a workshop and then exited
normally without `commit` or `rollback` having been called. -/
def c4_abandoned : UowState :=
  ((applyMut (MutOp.saveWorkshop c2_workshop) initUow.enter).exitScope
    false).2

/-- Invariant carried along a trace: each repository's log of assigned ids
is strictly increasing and bounded by that repository's `_next_id`. -/
def TraceInv (t : TracedState) : Prop :=
  (t.assignedW.Pairwise (· < ·) ∧
    ∀ i ∈ t.assignedW, i < t.uow.workshops.next_id) ∧
  (t.assignedB.Pairwise (· < ·) ∧
    ∀ i ∈ t.assignedB, i < t.uow.bookings.next_id) ∧
  (t.assignedG.Pairwise (· < ·) ∧
    ∀ i ∈ t.assignedG, i < t.uow.guardians.next_id)

/-- A guardian sitting (only by direct seeding) under key 0. -/
def c10_zero : GuardianEntity :=
  { id := some 0, name := "Zed", email := "z@x.com", phone := "0",
    postcode := "Z0" }

/-- Repository holding `c10_zero` under key 0. -/
def c10_repo : RepoState GuardianEntity :=
  { entities := [(0, c10_zero)], next_id := 1 }

/-- An entity to save whose id is the falsy `0`. -/
def c10_new : GuardianEntity :=
  { id := some 0, name := "N", email := "n@x.com", phone := "1",
    postcode := "Z" }

/-- Booking owned by guardian 1, for the unauthorized-cancel scenario. -/
def c7_booking : BookingEntity :=
  { id := some 1, workshop_id := some 1, guardian_id := some 1,
    children := [{ name := "A", age := 3 }], status := "active" }

/-- Full workshop for the unauthorized-cancel scenario. -/
def c7_workshop : WorkshopEntity :=
  { id := some 1, title := "w", max_families := 1, max_children := 1,
    current_families := 1, current_children := 1 }

/-- Guardian 1, owner of `c7_booking`. -/
def c7_guardian : GuardianEntity :=
  { id := some 1, name := "N", email := "A@x.com", phone := "1",
    postcode := "Z" }

/-- State with one workshop, one booking of guardian 1, one guardian. -/
def c7_state : UowState :=
  { workshops := { entities := [(1, c7_workshop)], next_id := 2 },
    bookings := { entities := [(1, c7_booking)], next_id := 2 },
    guardians := { entities := [(1, c7_guardian)], next_id := 2 } }

/-- Guardian 2 trying to cancel guardian 1's booking. -/
def c7_input : CancelBookingInputDTO :=
  { booking_id := 1, canceller_id := 2,
    canceller_type := CancellerType.guardian }

/-- First registration input. -/
def c8_in1 : RegisterGuardianInputDTO :=
  { name := "N", email := "A@x.com", phone := "1", postcode := "Z" }

/-- Second registration input: same email up to letter case. -/
def c8_in2 : RegisterGuardianInputDTO :=
  { name := "M", email := "a@X.COM", phone := "2", postcode := "Y" }

/-- State for the duplicate-detection scenario: one workshop, one guardian
with email `A@x.com`, one active booking of that guardian on workshop 1. -/
def c9_state : UowState :=
  { workshops := { entities := [(1, { id := some 1, title := "w" })], next_id := 2 },
    bookings := { entities := [(1, c7_booking)], next_id := 2 },
    guardians := { entities := [(1, c7_guardian)], next_id := 2 } }

/-- Duplicate check for the same email with different case. -/
def c9_input : PreventDuplicateBookingInputDTO :=
  { guardian_email := "a@X.COM", workshop_id := 1 }

/-- The guardian record `RegisterGuardian` saves when no existing guardian
matches: fresh fields from the input, id assigned by the repository. -/
def savedGuardian (inp : RegisterGuardianInputDTO) (n : Nat) :
    GuardianEntity :=
  { id := some n, name := inp.name, email := inp.email, phone := inp.phone,
    postcode := inp.postcode }

/-! ## Dict lemmas -/

/-- Looking up the key just written returns the written value. -/
theorem Dict.get_set_self {α : Type} (d : Dict α) (k : Nat) (v : α) :
    (d.set k v).get k = some v := by
  induction d with
  | nil => simp [Dict.set, Dict.get]
  | cons a rest ih =>
      by_cases ha : a.1 == k
      · simp [Dict.set, Dict.get, ha]
      · simp [Dict.set, Dict.get, ha, ih]

/-- Writing key `k` does not disturb lookups of another key. -/
theorem Dict.get_set_ne {α : Type} (d : Dict α) (k k' : Nat) (v : α)
    (h : k' ≠ k) : (d.set k v).get k' = d.get k' := by
  have hkk : (k == k') = false := by simp [Ne.symm h]
  induction d with
  | nil => simp [Dict.set, Dict.get, hkk]
  | cons a rest ih =>
      by_cases ha : a.1 == k
      · have ha1 : a.1 = k := by simpa using ha
        simp [Dict.set, Dict.get, ha, ha1, hkk]
      · simp only [Dict.set, ha, if_false, Bool.false_eq_true]
        by_cases ha' : a.1 == k'
        · simp [Dict.get, ha']
        · simp [Dict.get, ha', ih]

/-- Writing a value that satisfies `p` into a dict none of whose values
satisfy `p` makes it the unique `find?` hit over the values. -/
theorem Dict.find?_values_set {α : Type} (p : α → Bool) (d : Dict α)
    (k : Nat) (v : α) (hall : ∀ x ∈ d.values, p x = false)
    (hv : p v = true) : ((d.set k v).values).find? p = some v := by
  induction d with
  | nil => simp [Dict.set, Dict.values, List.find?_cons_of_pos, hv]
  | cons a rest ih =>
      have hhead : p a.2 = false := hall a.2 (by simp [Dict.values])
      have htail : ∀ x ∈ Dict.values rest, p x = false := fun x hx =>
        hall x (by simp [Dict.values] at hx ⊢; exact Or.inr hx)
      by_cases ha : a.1 == k
      · simp [Dict.set, Dict.values, ha, List.find?_cons_of_pos, hv]
      · simp only [Dict.set, ha, if_false, Bool.false_eq_true, Dict.values,
          List.map_cons]
        rw [List.find?_cons_of_neg _ (by simp [hhead])]
        exact ih htail

/-! ## Claim C1 -/

/-- Repository mutations do not touch the transaction flag or the snapshots. -/
theorem applyMut_preserves (m : MutOp) (s : UowState) :
    (applyMut m s).is_active = s.is_active ∧
    (applyMut m s).workshop_snapshots = s.workshop_snapshots ∧
    (applyMut m s).booking_snapshots = s.booking_snapshots ∧
    (applyMut m s).guardian_snapshots = s.guardian_snapshots := by
  cases m <;> exact ⟨rfl, rfl, rfl, rfl⟩

/-- A whole sequence of repository mutations does not touch the transaction
flag or the snapshots. -/
theorem applyMuts_preserves (ops : List MutOp) (s : UowState) :
    (applyMuts ops s).is_active = s.is_active ∧
    (applyMuts ops s).workshop_snapshots = s.workshop_snapshots ∧
    (applyMuts ops s).booking_snapshots = s.booking_snapshots ∧
    (applyMuts ops s).guardian_snapshots = s.guardian_snapshots := by
  induction ops generalizing s with
  | nil => exact ⟨rfl, rfl, rfl, rfl⟩
  | cons op rest ih =>
      have h1 := applyMut_preserves op s
      have h2 := ih (applyMut op s)
      have hstep : applyMuts (op :: rest) s = applyMuts rest (applyMut op s) :=
        rfl
      rw [hstep]
      exact ⟨h2.1.trans h1.1, h2.2.1.trans h1.2.1, h2.2.2.1.trans h1.2.2.1,
        h2.2.2.2.trans h1.2.2.2⟩

/-- C1: atomicity of the transaction scope. For any operation body — any
sequence of `save`/`delete` calls on the three repositories after `begin`
(`__enter__`) — if an exception propagates out of the scope, `__exit__`
performs `rollback` successfully, and afterwards `get_by_id` and `get_all`
on each repository return exactly what they returned before `begin`. -/
theorem uow_exception_rollback_restores_pre_state
    (s0 : UowState) (ops : List MutOp) :
    ((applyMuts ops s0.enter).exitScope true).1 = Except.ok () ∧
    ((applyMuts ops s0.enter).exitScope true).2.workshops.entities =
      s0.workshops.entities ∧
    ((applyMuts ops s0.enter).exitScope true).2.bookings.entities =
      s0.bookings.entities ∧
    ((applyMuts ops s0.enter).exitScope true).2.guardians.entities =
      s0.guardians.entities ∧
    (∀ i, ((applyMuts ops s0.enter).exitScope true).2.workshops.get_by_id i =
      s0.workshops.get_by_id i) ∧
    (∀ i, ((applyMuts ops s0.enter).exitScope true).2.bookings.get_by_id i =
      s0.bookings.get_by_id i) ∧
    (∀ i, ((applyMuts ops s0.enter).exitScope true).2.guardians.get_by_id i =
      s0.guardians.get_by_id i) ∧
    ((applyMuts ops s0.enter).exitScope true).2.workshops.get_all =
      s0.workshops.get_all ∧
    ((applyMuts ops s0.enter).exitScope true).2.bookings.get_all =
      s0.bookings.get_all ∧
    ((applyMuts ops s0.enter).exitScope true).2.guardians.get_all =
      s0.guardians.get_all := by
  obtain ⟨ha, hw, hb, hg⟩ := applyMuts_preserves ops s0.enter
  have hact : (applyMuts ops s0.enter).is_active = true := by rw [ha]; rfl
  have hsw : (applyMuts ops s0.enter).workshop_snapshots =
      s0.workshops.entities := by rw [hw]; rfl
  have hsb : (applyMuts ops s0.enter).booking_snapshots =
      s0.bookings.entities := by rw [hb]; rfl
  have hsg : (applyMuts ops s0.enter).guardian_snapshots =
      s0.guardians.entities := by rw [hg]; rfl
  have hroll :
      ((applyMuts ops s0.enter).exitScope true) =
        (Except.ok (),
          { applyMuts ops s0.enter with
            workshops := { (applyMuts ops s0.enter).workshops with
              entities := s0.workshops.entities }
            bookings := { (applyMuts ops s0.enter).bookings with
              entities := s0.bookings.entities }
            guardians := { (applyMuts ops s0.enter).guardians with
              entities := s0.guardians.entities }
            workshop_snapshots := []
            booking_snapshots := []
            guardian_snapshots := []
            is_active := false }) := by
    simp [UowState.exitScope, UowState.rollback, hact, hsw, hsb, hsg]
  rw [hroll]
  exact ⟨rfl, rfl, rfl, rfl, fun i => rfl, fun i => rfl, fun i => rfl,
    rfl, rfl, rfl⟩

/-! ## Claim C2 -/

/-- C2: the capacity floor/ceiling invariant is violated by the code.
Through the public API alone — seed a 1-family/2-children workshop in a
committed transaction, create a booking with two children, cancel it, then
cancel the already-cancelled booking again (`CancelBooking` never checks
the booking's status) — every operation reports success and the workshop
ends with `current_children = -2 < 0` after a committed transaction.
`remaining_child_slots()` itself stays non-negative (defensive floor). -/
theorem double_cancel_drives_current_children_negative :
    c2_created.1.success = true ∧
    c2_cancel1.1.success = true ∧
    c2_cancel2.1.success = true ∧
    (c2_cancel1.2.workshops.get_by_id 1).map
      WorkshopEntity.current_children = some 0 ∧
    (c2_cancel2.2.workshops.get_by_id 1).map
      WorkshopEntity.current_children = some (-2) ∧
    (c2_cancel2.2.workshops.get_by_id 1).map
      WorkshopEntity.remaining_child_slots = some 4 ∧
    c2_cancel2.2.is_active = false := by
  refine ⟨rfl, rfl, rfl, rfl, rfl, by decide, rfl⟩

/-! ## Claim C4 -/

/-- C4 counterexample: after a transaction scope that performed a mutation
and exited normally without `commit` or `rollback`, `__exit__` has already
set `_is_active = False` — the Unit of Work is NOT left in the active
state, and a new transaction can begin (its `__enter__` sets the flag
again). This refutes the claim that the Unit of Work "remains in the
active state" and is "unusable for a new transaction". -/
theorem normal_exit_without_commit_clears_active_flag :
    c4_abandoned.is_active = false ∧
    c4_abandoned.enter.is_active = true := by
  exact ⟨rfl, rfl⟩

/-- C4 amended: if the transaction scope exits normally without `commit` or
`rollback` having been called, `__exit__` performs no rollback and no
commit: the only change is that `_is_active` is cleared. The mutations
made inside the scope remain in the repositories and the stale snapshots
remain held (until the next `begin`/`commit`/`rollback`), and the Unit of
Work is idle, hence immediately reusable for a new transaction. -/
theorem normal_exit_abandons_transaction_to_idle
    (s0 : UowState) (ops : List MutOp) :
    (applyMuts ops s0.enter).exitScope false =
      (Except.ok (), { applyMuts ops s0.enter with is_active := false }) ∧
    ((applyMuts ops s0.enter).exitScope false).2.enter.is_active = true := by
  exact ⟨rfl, rfl⟩

/-! ## Claim C3 -/

/-- C3: on an idle Unit of Work both `commit` and `rollback` raise
`ValueError` ("InvalidState") leaving the whole state — in particular all
repository contents — unchanged; and after a successful `commit` the state
is idle again, so a second `commit` (or a `rollback`) within the same
scope raises `ValueError` and changes nothing. -/
theorem commit_rollback_idle_invalid_state (s : UowState) :
    (s.is_active = false →
      s.commit = (Except.error "Cannot commit - no active transaction", s) ∧
      s.rollback =
        (Except.error "Cannot rollback - no active transaction", s)) ∧
    (s.is_active = true →
      s.commit.1 = Except.ok () ∧
      s.commit.2.is_active = false ∧
      s.commit.2.commit =
        (Except.error "Cannot commit - no active transaction", s.commit.2) ∧
      s.commit.2.rollback =
        (Except.error "Cannot rollback - no active transaction",
          s.commit.2)) := by
  constructor
  · intro h
    constructor
    · simp [UowState.commit, h]
    · simp [UowState.rollback, h]
  · intro h
    refine ⟨by simp [UowState.commit, h], by simp [UowState.commit, h],
      ?_, ?_⟩
    · simp [UowState.commit, h]
    · simp [UowState.commit, UowState.rollback, h]

/-- C3 witness: a fresh Unit of Work is idle, so `commit` raises; and after
`begin` then `commit`, a second `commit` raises. -/
theorem commit_rollback_idle_invalid_state_witness :
    initUow.is_active = false ∧
    initUow.commit =
      (Except.error "Cannot commit - no active transaction", initUow) ∧
    initUow.enter.is_active = true ∧
    initUow.enter.commit.2.commit.1 =
      Except.error "Cannot commit - no active transaction" := by
  refine ⟨rfl, ((commit_rollback_idle_invalid_state initUow).1 rfl).1, rfl,
    ?_⟩
  have h := ((commit_rollback_idle_invalid_state initUow.enter).2 rfl).2.2.1
  rw [h]

/-! ## Claim C10 -/

/-- C10: `save` treats a falsy id (`None` or `0`) as unset: the entity is
assigned `_next_id` (not `0`), inserted there as a new record, and the
entry stored under id 0 — if any — is untouched; a truthy id overwrites at
exactly that id and changes nothing else. -/
theorem save_falsy_id_inserts_fresh {α : Type} [EntityId α]
    (s : RepoState α) (e : α) (hpos : 0 < s.next_id) :
    (idTruthy (EntityId.getId e) = false →
      (s.save e).1 = EntityId.setId e s.next_id ∧
      (s.save e).2.next_id = s.next_id + 1 ∧
      (s.save e).2.get_by_id s.next_id =
        some (EntityId.setId e s.next_id) ∧
      (s.save e).2.get_by_id 0 = s.get_by_id 0) ∧
    (∀ k, EntityId.getId e = some k → k ≠ 0 →
      (s.save e).1 = e ∧
      (s.save e).2.next_id = s.next_id ∧
      (s.save e).2.get_by_id k = some e ∧
      ∀ j, j ≠ k → (s.save e).2.get_by_id j = s.get_by_id j) := by
  constructor
  · intro hf
    have hsave : s.save e =
        (EntityId.setId e s.next_id,
          { entities := s.entities.set s.next_id (EntityId.setId e s.next_id),
            next_id := s.next_id + 1 }) := by
      simp [RepoState.save, hf]
    rw [hsave]
    refine ⟨rfl, rfl, ?_, ?_⟩
    · exact Dict.get_set_self s.entities s.next_id (EntityId.setId e s.next_id)
    · exact Dict.get_set_ne s.entities s.next_id 0 _ (by omega)
  · intro k hk hk0
    have ht : idTruthy (some k) = true := by
      unfold idTruthy
      simp [hk0]
    have hsave : s.save e =
        (e, { s with entities := s.entities.set k e }) := by
      simp [RepoState.save, hk, ht]
    rw [hsave]
    refine ⟨rfl, rfl, ?_, ?_⟩
    · exact Dict.get_set_self s.entities k e
    · intro j hj
      exact Dict.get_set_ne s.entities k j e hj

/-- C10 witness: saving an entity whose id is `0` into a repository that
(by direct seeding) holds a record under key 0 leaves that record alone and
inserts the new entity under the assigned id 1. -/
theorem save_falsy_id_inserts_fresh_witness :
    0 < c10_repo.next_id ∧
    (c10_repo.save c10_new).1 = EntityId.setId c10_new 1 ∧
    (c10_repo.save c10_new).2.get_by_id 0 = c10_repo.get_by_id 0 ∧
    (c10_repo.save c10_new).2.get_by_id 1 =
      some (EntityId.setId c10_new 1) := by
  have h := (save_falsy_id_inserts_fresh c10_repo c10_new
    (by decide)).1 rfl
  exact ⟨by decide, h.1, h.2.2.2, h.2.2.1⟩

/-! ## Claim C5 -/

/-- `delete` never touches `_next_id`. -/
theorem delete_next_id {α : Type} (s : RepoState α) (i : Nat) :
    (s.delete i).2.next_id = s.next_id := by
  unfold RepoState.delete
  split <;> rfl

/-- `commit` leaves all three repository objects untouched. -/
theorem commit_repos (s : UowState) :
    s.commit.2.workshops = s.workshops ∧
    s.commit.2.bookings = s.bookings ∧
    s.commit.2.guardians = s.guardians := by
  unfold UowState.commit
  by_cases h : s.is_active <;> simp [h]

/-- `rollback` restores entities but never touches `_next_id`. -/
theorem rollback_next_ids (s : UowState) :
    s.rollback.2.workshops.next_id = s.workshops.next_id ∧
    s.rollback.2.bookings.next_id = s.bookings.next_id ∧
    s.rollback.2.guardians.next_id = s.guardians.next_id := by
  unfold UowState.rollback
  by_cases h : s.is_active <;> simp [h]

/-- `__exit__` never touches `_next_id`. -/
theorem exitScope_next_ids (exc : Bool) (s : UowState) :
    (s.exitScope exc).2.workshops.next_id = s.workshops.next_id ∧
    (s.exitScope exc).2.bookings.next_id = s.bookings.next_id ∧
    (s.exitScope exc).2.guardians.next_id = s.guardians.next_id := by
  unfold UowState.exitScope UowState.rollback
  cases exc <;> by_cases h : s.is_active <;> simp [h]

/-- Extending a bounded strictly increasing log with the bound itself. -/
theorem log_extend (n : Nat) (log : List Nat)
    (hp : log.Pairwise (· < ·)) (hb : ∀ i ∈ log, i < n) :
    (log ++ [n]).Pairwise (· < ·) ∧ ∀ i ∈ log ++ [n], i < n + 1 := by
  constructor
  · refine List.pairwise_append.mpr ⟨hp, List.pairwise_singleton _ _, ?_⟩
    intro a ha b hb'
    have : b = n := by simpa using hb'
    subst this
    exact hb a ha
  · intro i hi
    rcases List.mem_append.mp hi with hi | hi
    · exact Nat.lt_trans (hb i hi) (Nat.lt_succ_self n)
    · have : i = n := by simpa using hi
      omega

/-- One `save` call preserves the assignment-log invariant of its own
repository: the log stays strictly increasing and bounded by the updated
`_next_id`. -/
theorem save_log_inv {α : Type} [EntityId α] (s : RepoState α) (e : α)
    (log : List Nat) (hp : log.Pairwise (· < ·))
    (hb : ∀ i ∈ log, i < s.next_id) :
    (assignLog s e log).Pairwise (· < ·) ∧
    ∀ i ∈ assignLog s e log, i < (s.save e).2.next_id := by
  by_cases h : idTruthy (EntityId.getId e) = true
  · have hnext : (s.save e).2.next_id = s.next_id := by
      cases hid : EntityId.getId e with
      | none => rw [hid] at h; simp [idTruthy] at h
      | some k =>
          have h2 : idTruthy (some k) = true := hid ▸ h
          simp [RepoState.save, hid, h2]
    have hlog : assignLog s e log = log := by
      simp [assignLog, h]
    rw [hlog, hnext]
    exact ⟨hp, hb⟩
  · have h' : idTruthy (EntityId.getId e) = false := by
      simpa using h
    have hnext : (s.save e).2.next_id = s.next_id + 1 := by
      simp [RepoState.save, h']
    have hlog : assignLog s e log = log ++ [s.next_id] := by
      simp [assignLog, h']
    rw [hlog, hnext]
    exact log_extend s.next_id log hp hb

/-- Every trace step preserves the log invariant: `_next_id` only ever
grows, and the only log extension appends the fresh id just handed out. -/
theorem stepT_inv (op : TraceOp) (t : TracedState) (h : TraceInv t) :
    TraceInv (stepT op t) := by
  obtain ⟨⟨hwp, hwb⟩, ⟨hbp, hbb⟩, ⟨hgp, hgb⟩⟩ := h
  cases op with
  | repoCall m =>
      cases m with
      | saveWorkshop w =>
          exact ⟨save_log_inv t.uow.workshops w t.assignedW hwp hwb,
            ⟨hbp, hbb⟩, ⟨hgp, hgb⟩⟩
      | saveBooking b =>
          exact ⟨⟨hwp, hwb⟩,
            save_log_inv t.uow.bookings b t.assignedB hbp hbb,
            ⟨hgp, hgb⟩⟩
      | saveGuardian g =>
          exact ⟨⟨hwp, hwb⟩, ⟨hbp, hbb⟩,
            save_log_inv t.uow.guardians g t.assignedG hgp hgb⟩
      | deleteWorkshop i =>
          refine ⟨⟨hwp, ?_⟩, ⟨hbp, hbb⟩, ⟨hgp, hgb⟩⟩
          intro j hj
          show j < (t.uow.workshops.delete i).2.next_id
          rw [delete_next_id]
          exact hwb j hj
      | deleteBooking i =>
          refine ⟨⟨hwp, hwb⟩, ⟨hbp, ?_⟩, ⟨hgp, hgb⟩⟩
          intro j hj
          show j < (t.uow.bookings.delete i).2.next_id
          rw [delete_next_id]
          exact hbb j hj
      | deleteGuardian i =>
          refine ⟨⟨hwp, hwb⟩, ⟨hbp, hbb⟩, ⟨hgp, ?_⟩⟩
          intro j hj
          show j < (t.uow.guardians.delete i).2.next_id
          rw [delete_next_id]
          exact hgb j hj
  | beginTx =>
      exact ⟨⟨hwp, hwb⟩, ⟨hbp, hbb⟩, ⟨hgp, hgb⟩⟩
  | endTx exc =>
      obtain ⟨e1, e2, e3⟩ := exitScope_next_ids exc t.uow
      refine ⟨⟨hwp, ?_⟩, ⟨hbp, ?_⟩, ⟨hgp, ?_⟩⟩
      · intro j hj
        show j < (t.uow.exitScope exc).2.workshops.next_id
        rw [e1]
        exact hwb j hj
      · intro j hj
        show j < (t.uow.exitScope exc).2.bookings.next_id
        rw [e2]
        exact hbb j hj
      · intro j hj
        show j < (t.uow.exitScope exc).2.guardians.next_id
        rw [e3]
        exact hgb j hj
  | commitTx =>
      obtain ⟨e1, e2, e3⟩ := commit_repos t.uow
      refine ⟨⟨hwp, ?_⟩, ⟨hbp, ?_⟩, ⟨hgp, ?_⟩⟩
      · intro j hj
        show j < t.uow.commit.2.workshops.next_id
        rw [e1]
        exact hwb j hj
      · intro j hj
        show j < t.uow.commit.2.bookings.next_id
        rw [e2]
        exact hbb j hj
      · intro j hj
        show j < t.uow.commit.2.guardians.next_id
        rw [e3]
        exact hgb j hj
  | rollbackTx =>
      obtain ⟨e1, e2, e3⟩ := rollback_next_ids t.uow
      refine ⟨⟨hwp, ?_⟩, ⟨hbp, ?_⟩, ⟨hgp, ?_⟩⟩
      · intro j hj
        show j < t.uow.rollback.2.workshops.next_id
        rw [e1]
        exact hwb j hj
      · intro j hj
        show j < t.uow.rollback.2.bookings.next_id
        rw [e2]
        exact hbb j hj
      · intro j hj
        show j < t.uow.rollback.2.guardians.next_id
        rw [e3]
        exact hgb j hj


/-! ## Claim C7 -/

/-- C7: an unauthorized cancellation — canceller of type guardian whose id
differs from the booking's `guardian_id` — is rejected by
`_validate_canceller` strictly before any mutation: `execute` returns the
permission failure and every repository's contents (in particular the
booking's status and the workshop's counters) are exactly as before. -/
theorem unauthorized_cancel_rejected_without_mutation
    (inp : CancelBookingInputDTO) (s : UowState) (b : BookingEntity)
    (hb : s.bookings.get_by_id inp.booking_id = some b)
    (ht : inp.canceller_type = CancellerType.guardian)
    (hne : b.guardian_id ≠ some inp.canceller_id) :
    (CancelBookingUseCase.execute inp s).1 =
      ⟨false, some "You do not have permission to cancel this booking"⟩ ∧
    (CancelBookingUseCase.execute inp s).2.workshops.entities =
      s.workshops.entities ∧
    (CancelBookingUseCase.execute inp s).2.bookings.entities =
      s.bookings.entities ∧
    (CancelBookingUseCase.execute inp s).2.guardians.entities =
      s.guardians.entities ∧
    (CancelBookingUseCase.execute inp s).2.bookings.get_by_id
      inp.booking_id = some b := by
  have hval : CancelBookingUseCase.validate_canceller b inp = false := by
    unfold CancelBookingUseCase.validate_canceller
    rw [ht]
    simpa using hne
  have hexec : CancelBookingUseCase.execute inp s =
      (⟨false, some "You do not have permission to cancel this booking"⟩,
        { s.enter with is_active := false }) := by
    unfold CancelBookingUseCase.execute
    simp [UowState.enter, hb, hval, UowState.exitScope]
  rw [hexec]
  exact ⟨rfl, rfl, rfl, rfl, hb⟩

/-- C7 witness: guardian 2 fails to cancel guardian 1's booking; contents
unchanged. -/
theorem unauthorized_cancel_rejected_without_mutation_witness :
    c7_state.bookings.get_by_id 1 = some c7_booking ∧
    c7_input.canceller_type = CancellerType.guardian ∧
    c7_booking.guardian_id ≠ some c7_input.canceller_id ∧
    (CancelBookingUseCase.execute c7_input c7_state).1 =
      ⟨false, some "You do not have permission to cancel this booking"⟩ ∧
    (CancelBookingUseCase.execute c7_input c7_state).2.workshops.entities =
      c7_state.workshops.entities ∧
    (CancelBookingUseCase.execute c7_input c7_state).2.bookings.get_by_id 1 =
      some c7_booking := by
  have h := unauthorized_cancel_rejected_without_mutation c7_input c7_state
    c7_booking rfl rfl (by decide)
  exact ⟨rfl, rfl, by decide, h.1, h.2.1, h.2.2.2.2⟩

/-! ## Claim C8 -/

/-- `RegisterGuardian.execute` when a case-insensitive email match exists:
returns the matched guardian's id, stores nothing. -/
theorem register_execute_found (inp : RegisterGuardianInputDTO)
    (s : UowState) (g : GuardianEntity)
    (hv : RegisterGuardianUseCase.validate_input inp = true)
    (hf : RegisterGuardianUseCase.find_by_email s.guardians inp.email =
      some g) :
    RegisterGuardianUseCase.execute inp s =
      (⟨true, g.id, none⟩, { s.enter with is_active := false }) := by
  unfold RegisterGuardianUseCase.execute
  simp [hv, UowState.enter, hf, UowState.exitScope]

/-- `RegisterGuardian.execute` when no email matches: saves a fresh
guardian under the next id and commits. -/
theorem register_execute_notfound (inp : RegisterGuardianInputDTO)
    (s : UowState)
    (hv : RegisterGuardianUseCase.validate_input inp = true)
    (hf : RegisterGuardianUseCase.find_by_email s.guardians inp.email =
      none) :
    RegisterGuardianUseCase.execute inp s =
      (⟨true, some s.guardians.next_id, none⟩,
        { workshops := s.workshops, bookings := s.bookings,
          guardians :=
            ⟨Dict.set s.guardians.entities s.guardians.next_id
              (savedGuardian inp s.guardians.next_id),
              s.guardians.next_id + 1⟩,
          workshop_snapshots := [], booking_snapshots := [],
          guardian_snapshots := [], is_active := false }) := by
  unfold RegisterGuardianUseCase.execute
  simp [hv, UowState.enter, hf, UowState.exitScope, UowState.commit,
    RepoState.save, idTruthy, savedGuardian, EntityId.setId]

/-- C8: two `RegisterGuardian` calls with valid input and emails equal up
to letter case: the first succeeds, the second succeeds, returns the same
guardian id, and leaves the guardian repository exactly as the first call
left it (no second record). -/
theorem register_guardian_case_insensitive_dedup
    (in1 in2 : RegisterGuardianInputDTO) (s0 : UowState)
    (h1 : RegisterGuardianUseCase.validate_input in1 = true)
    (h2 : RegisterGuardianUseCase.validate_input in2 = true)
    (he : pyLower in1.email = pyLower in2.email) :
    (RegisterGuardianUseCase.execute in1 s0).1.success = true ∧
    (RegisterGuardianUseCase.execute in2
      (RegisterGuardianUseCase.execute in1 s0).2).1.success = true ∧
    (RegisterGuardianUseCase.execute in2
      (RegisterGuardianUseCase.execute in1 s0).2).1.guardian_id =
      (RegisterGuardianUseCase.execute in1 s0).1.guardian_id ∧
    (RegisterGuardianUseCase.execute in2
      (RegisterGuardianUseCase.execute in1 s0).2).2.guardians.entities =
      (RegisterGuardianUseCase.execute in1 s0).2.guardians.entities := by
  cases hf : RegisterGuardianUseCase.find_by_email s0.guardians in1.email
    with
  | some g =>
      have e1 := register_execute_found in1 s0 g h1 hf
      have hf2 : RegisterGuardianUseCase.find_by_email
          ({ s0.enter with is_active := false } : UowState).guardians
          in2.email = some g := by
        show RegisterGuardianUseCase.find_by_email s0.guardians in2.email =
          some g
        unfold RegisterGuardianUseCase.find_by_email at hf ⊢
        rw [← he]
        exact hf
      have e2 := register_execute_found in2
        ({ s0.enter with is_active := false }) g h2 hf2
      rw [e1, e2]
      exact ⟨rfl, rfl, rfl, rfl⟩
  | none =>
      have e1 := register_execute_notfound in1 s0 h1 hf
      have hall : ∀ x ∈ Dict.values s0.guardians.entities,
          (pyLower x.email == pyLower in2.email) = false := by
        intro x hx
        rw [← he]
        unfold RegisterGuardianUseCase.find_by_email at hf
        have := List.find?_eq_none.mp hf x hx
        simpa using this
      have hg : (pyLower (savedGuardian in1 s0.guardians.next_id).email ==
          pyLower in2.email) = true := by
        simp [savedGuardian, he]
      have hf2 : RegisterGuardianUseCase.find_by_email
          (⟨Dict.set s0.guardians.entities s0.guardians.next_id
              (savedGuardian in1 s0.guardians.next_id),
            s0.guardians.next_id + 1⟩ : RepoState GuardianEntity)
          in2.email = some (savedGuardian in1 s0.guardians.next_id) := by
        show ((Dict.set s0.guardians.entities s0.guardians.next_id
          (savedGuardian in1 s0.guardians.next_id)).values).find?
            (fun g => pyLower g.email == pyLower in2.email) =
          some (savedGuardian in1 s0.guardians.next_id)
        exact Dict.find?_values_set _ _ _ _ hall hg
      have e2 := register_execute_found in2
        ({ workshops := s0.workshops, bookings := s0.bookings,
           guardians :=
             ⟨Dict.set s0.guardians.entities s0.guardians.next_id
               (savedGuardian in1 s0.guardians.next_id),
               s0.guardians.next_id + 1⟩,
           workshop_snapshots := [], booking_snapshots := [],
           guardian_snapshots := [], is_active := false })
        (savedGuardian in1 s0.guardians.next_id) h2 hf2
      rw [e1, e2]
      exact ⟨rfl, rfl, rfl, rfl⟩

/-- C8 witness: register `A@x.com` then `a@X.COM` starting from an empty
repository: both succeed, same id 1, one stored record. -/
theorem register_guardian_case_insensitive_dedup_witness :
    RegisterGuardianUseCase.validate_input c8_in1 = true ∧
    RegisterGuardianUseCase.validate_input c8_in2 = true ∧
    pyLower c8_in1.email = pyLower c8_in2.email ∧
    (RegisterGuardianUseCase.execute c8_in2
      (RegisterGuardianUseCase.execute c8_in1 initUow).2).1.guardian_id =
      (RegisterGuardianUseCase.execute c8_in1 initUow).1.guardian_id ∧
    (RegisterGuardianUseCase.execute c8_in2
      (RegisterGuardianUseCase.execute c8_in1 initUow).2).2.guardians.entities =
      (RegisterGuardianUseCase.execute c8_in1 initUow).2.guardians.entities := by
  have h := register_guardian_case_insensitive_dedup c8_in1 c8_in2 initUow
    (by decide) (by decide) (by decide)
  exact ⟨by decide, by decide, by decide, h.2.2.1, h.2.2.2⟩

/-! ## Claim C9 -/

/-- The duplicate check reduces to: some case-insensitively matching
guardian has a qualifying booking. -/
theorem duplicate_check_result (inp : PreventDuplicateBookingInputDTO)
    (s : UowState) (w : WorkshopEntity)
    (hemail : inp.guardian_email ≠ "")
    (hwid : inp.workshop_id ≠ 0)
    (hw : s.workshops.get_by_id inp.workshop_id = some w) :
    (PreventDuplicateBookingUseCase.execute inp s).1.is_duplicate =
      (PreventDuplicateBookingUseCase.find_guardians_by_email s.guardians
        inp.guardian_email).any
        (fun g => PreventDuplicateBookingUseCase.has_existing_booking
          s.bookings g.id inp.workshop_id) := by
  have hguard : (inp.guardian_email == "" || inp.workshop_id == 0) = false :=
    by simp [hemail, hwid]
  unfold PreventDuplicateBookingUseCase.execute
  simp only [UowState.enter, hguard, Bool.false_eq_true, if_false]
  rw [show ({ s with
      workshop_snapshots := s.workshops.entities
      booking_snapshots := s.bookings.entities
      guardian_snapshots := s.guardians.entities
      is_active := true } : UowState).workshops = s.workshops from rfl]
  rw [hw]
  by_cases hemp : (PreventDuplicateBookingUseCase.find_guardians_by_email
      s.guardians inp.guardian_email).isEmpty
  · have hnil : PreventDuplicateBookingUseCase.find_guardians_by_email
        s.guardians inp.guardian_email = [] := by
      simpa [List.isEmpty_iff] using hemp
    simp [hemp, hnil]
  · by_cases hany : (PreventDuplicateBookingUseCase.find_guardians_by_email
        s.guardians inp.guardian_email).any
        (fun g => PreventDuplicateBookingUseCase.has_existing_booking
          s.bookings g.id inp.workshop_id) = true
    · simp [hemp, hany]
    · simp [hemp, hany]

/-- C9: for a non-empty email and an existing workshop (ids handed out by
`save` are always positive, so an existing workshop's key is nonzero),
`PreventDuplicateBooking` reports `is_duplicate = true` iff some guardian
whose stored email equals the given email case-insensitively has a booking
with status `active` for that workshop — bookings with status `cancelled`
never make it true. -/
theorem duplicate_check_active_iff
    (inp : PreventDuplicateBookingInputDTO) (s : UowState)
    (w : WorkshopEntity)
    (hemail : inp.guardian_email ≠ "")
    (hwid : inp.workshop_id ≠ 0)
    (hw : s.workshops.get_by_id inp.workshop_id = some w) :
    ((PreventDuplicateBookingUseCase.execute inp s).1.is_duplicate = true ↔
      ∃ g ∈ s.guardians.get_all,
        pyLower g.email = pyLower inp.guardian_email ∧
        ∃ b ∈ s.bookings.get_all,
          b.guardian_id = g.id ∧ b.workshop_id = some inp.workshop_id ∧
          b.status = "active") := by
  rw [duplicate_check_result inp s w hemail hwid hw]
  rw [List.any_eq_true]
  constructor
  · rintro ⟨g, hg, hbk⟩
    rw [PreventDuplicateBookingUseCase.find_guardians_by_email,
      List.mem_filter] at hg
    obtain ⟨hgmem, hgeq⟩ := hg
    refine ⟨g, hgmem, by simpa using hgeq, ?_⟩
    rw [PreventDuplicateBookingUseCase.has_existing_booking,
      decide_eq_true_eq] at hbk
    have hne : (RepoState.get_all s.bookings).filter (fun b =>
        b.guardian_id == g.id && b.workshop_id == some inp.workshop_id &&
        b.is_active) ≠ [] := by
      intro hnil
      rw [hnil] at hbk
      simp at hbk
    obtain ⟨b, hbmem⟩ := List.exists_mem_of_ne_nil _ hne
    have hbfil := List.mem_filter.mp hbmem
    obtain ⟨hbm, hbcond⟩ := hbfil
    have := hbcond
    simp only [Bool.and_eq_true, beq_iff_eq, BookingEntity.is_active] at this
    exact ⟨b, hbm, this.1.1, this.1.2, by simpa using this.2⟩
  · rintro ⟨g, hgmem, hgeq, b, hbm, hbg, hbw, hbs⟩
    refine ⟨g, ?_, ?_⟩
    · rw [PreventDuplicateBookingUseCase.find_guardians_by_email,
        List.mem_filter]
      exact ⟨hgmem, by simp [hgeq]⟩
    · rw [PreventDuplicateBookingUseCase.has_existing_booking,
        decide_eq_true_eq]
      have hbfil : b ∈ (RepoState.get_all s.bookings).filter (fun b =>
          b.guardian_id == g.id && b.workshop_id == some inp.workshop_id &&
          b.is_active) := by
        rw [List.mem_filter]
        refine ⟨hbm, ?_⟩
        simp [hbg, hbw, BookingEntity.is_active, hbs]
      exact List.length_pos.mpr (List.ne_nil_of_mem hbfil)

/-- C9 witness: guardian with stored email `A@x.com` and an active booking
on workshop 1 makes the check for `a@X.COM` report a duplicate. -/
theorem duplicate_check_active_iff_witness :
    c9_input.guardian_email ≠ "" ∧
    c9_input.workshop_id ≠ 0 ∧
    c9_state.workshops.get_by_id 1 = some { id := some 1, title := "w" } ∧
    (PreventDuplicateBookingUseCase.execute c9_input c9_state).1.is_duplicate
      = true := by
  refine ⟨by decide, by decide, rfl, ?_⟩
  have h := duplicate_check_active_iff c9_input c9_state
    { id := some 1, title := "w" } (by decide) (by decide) rfl
  exact h.mpr ⟨c7_guardian, by decide, by decide,
    c7_booking, by decide, by decide, by decide, rfl⟩

/-! ## Claim C6 -/

/-- A successful dict lookup exposes a member pair. -/
theorem Dict.get_mem {α : Type} {d : Dict α} {k : Nat} {v : α}
    (h : d.get k = some v) : (k, v) ∈ d := by
  induction d with
  | nil => simp [Dict.get] at h
  | cons p rest ih =>
      by_cases hp : p.1 == k
      · have h1 : p.1 = k := by simpa using hp
        have h2 : some p.2 = some v := by simpa [Dict.get, hp] using h
        have h3 : p.2 = v := by injection h2
        have hkv : (k, v) = p := by rw [← h1, ← h3]
        rw [hkv]
        exact List.mem_cons_self p rest
      · have h' : Dict.get rest k = some v := by
          simpa [Dict.get, hp] using h
        exact List.mem_cons_of_mem p (ih h')

/-- Members of a dict after a write: the written pair or an original one. -/
theorem Dict.mem_set {α : Type} {d : Dict α} {k : Nat} {v : α} {p : Nat × α}
    (h : p ∈ d.set k v) : p = (k, v) ∨ p ∈ d := by
  induction d with
  | nil => simpa [Dict.set] using h
  | cons q rest ih =>
      by_cases hq : q.1 == k
      · rw [Dict.set, if_pos hq] at h
        rcases List.mem_cons.mp h with h | h
        · exact Or.inl h
        · exact Or.inr (List.mem_cons_of_mem q h)
      · rw [Dict.set, if_neg hq] at h
        rcases List.mem_cons.mp h with h | h
        · exact Or.inr (by rw [h]; exact List.mem_cons_self q rest)
        · rcases ih h with h | h
          · exact Or.inl h
          · exact Or.inr (List.mem_cons_of_mem q h)

/-- `agreesBelow` is reflexive. -/
theorem agreesBelow_refl {σ τ : Type} (n : Nat) (h : Heap σ τ) :
    agreesBelow n h h := fun _ _ => ⟨rfl, rfl⟩

/-- `agreesBelow` is antitone in the bound. -/
theorem agreesBelow_mono {σ τ : Type} {n m : Nat} {h h' : Heap σ τ}
    (hnm : n ≤ m) (ha : agreesBelow m h h') : agreesBelow n h h' :=
  fun r hr => ha r (lt_of_lt_of_le hr hnm)

/-- `agreesBelow` composes. -/
theorem agreesBelow_trans {σ τ : Type} {n : Nat} {h h' h'' : Heap σ τ}
    (a : agreesBelow n h h') (b : agreesBelow n h' h'') :
    agreesBelow n h h'' :=
  fun r hr => ⟨(b r hr).1.trans (a r hr).1, (b r hr).2.trans (a r hr).2⟩

/-- Reads only look at cells below a well-formedness bound, so they are
stable under any heap change that agrees below that bound. -/
theorem HeapRepo.read_congr {σ τ : Type} (R : HeapRepo σ τ)
    (h' : Heap σ τ) (m : Nat) (hwf : R.WFBound m)
    (hag : agreesBelow m R.heap h') :
    ∀ i, HeapRepo.read { R with heap := h' } i = R.read i := by
  intro i
  unfold HeapRepo.read
  cases hent : R.entities.get i with
  | none => simp [hent]
  | some r =>
      obtain ⟨hrm, o, ho, hom⟩ := hwf (i, r) (Dict.get_mem hent)
      have h1 : h'.objs.get r = some o := (hag r hrm).1.trans ho
      have h2 : h'.subs.get o.subRef = R.heap.subs.get o.subRef :=
        (hag o.subRef hom).2
      simp [hent, ho, h1, h2]

/-- The equation a successful `deepcopy` satisfies. -/
theorem Heap.copyObj_eq {σ τ : Type} (h : Heap σ τ) (r : Nat)
    (o : HeapObj σ) (t : τ) (ho : h.objs.get r = some o)
    (hs : h.subs.get o.subRef = some t) :
    h.copyObj r =
      (some (h.nextRef + 1),
        { objs := h.objs.set (h.nextRef + 1) ⟨o.flat, h.nextRef⟩,
          subs := h.subs.set h.nextRef t,
          nextRef := h.nextRef + 2 }) := by
  unfold Heap.copyObj
  split
  · rename_i heq
    rw [ho] at heq
    exact Option.noConfusion heq
  · rename_i o' heq
    rw [ho] at heq
    injection heq with ho'
    subst ho'
    split
    · rename_i heq2
      rw [hs] at heq2
      exact Option.noConfusion heq2
    · rename_i t' heq2
      rw [hs] at heq2
      injection heq2 with ht'
      subst ht'
      rfl

/-- A failed `deepcopy` (dangling reference — a model artifact with no
Python counterpart) leaves the heap alone. -/
theorem Heap.copyObj_stuck {σ τ : Type} (h : Heap σ τ) (r : Nat)
    (hno : ∀ o t, ¬(h.objs.get r = some o ∧ h.subs.get o.subRef = some t)) :
    h.copyObj r = (none, h) := by
  unfold Heap.copyObj
  split
  · rfl
  · rename_i o heq
    split
    · rfl
    · rename_i t heq2
      exact absurd ⟨heq, heq2⟩ (hno o t)

/-- `deepcopy` only allocates: cells below the allocation bump keep their
contents. -/
theorem Heap.copyObj_agrees {σ τ : Type} (h : Heap σ τ) (r : Nat) :
    agreesBelow h.nextRef h (h.copyObj r).2 := by
  by_cases hok : ∃ o t, h.objs.get r = some o ∧ h.subs.get o.subRef = some t
  · obtain ⟨o, t, ho, hs⟩ := hok
    rw [Heap.copyObj_eq h r o t ho hs]
    intro r' hr'
    constructor
    · exact Dict.get_set_ne _ _ _ _ (by omega)
    · exact Dict.get_set_ne _ _ _ _ (by omega)
  · have hno : ∀ o t,
        ¬(h.objs.get r = some o ∧ h.subs.get o.subRef = some t) :=
      fun o t hc => hok ⟨o, t, hc⟩
    rw [Heap.copyObj_stuck h r hno]
    exact agreesBelow_refl _ _

/-- `deepcopy` never lowers the allocation bump. -/
theorem Heap.copyObj_nextRef_le {σ τ : Type} (h : Heap σ τ) (r : Nat) :
    h.nextRef ≤ (h.copyObj r).2.nextRef := by
  by_cases hok : ∃ o t, h.objs.get r = some o ∧ h.subs.get o.subRef = some t
  · obtain ⟨o, t, ho, hs⟩ := hok
    rw [Heap.copyObj_eq h r o t ho hs]
    simp
  · have hno : ∀ o t,
        ¬(h.objs.get r = some o ∧ h.subs.get o.subRef = some t) :=
      fun o t hc => hok ⟨o, t, hc⟩
    rw [Heap.copyObj_stuck h r hno]

/-- A successful `deepcopy` returns the fresh root `nextRef + 1`, holding
the copied flat fields and a fresh sub-cell reference `nextRef`. -/
theorem Heap.copyObj_ret {σ τ : Type} (h : Heap σ τ) (r r' : Nat)
    (hr : (h.copyObj r).1 = some r') :
    r' = h.nextRef + 1 ∧ (h.copyObj r).2.nextRef = h.nextRef + 2 ∧
    ∃ fl, (h.copyObj r).2.objs.get r' = some ⟨fl, h.nextRef⟩ := by
  by_cases hok : ∃ o t, h.objs.get r = some o ∧ h.subs.get o.subRef = some t
  · obtain ⟨o, t, ho, hs⟩ := hok
    rw [Heap.copyObj_eq h r o t ho hs] at hr ⊢
    have hr' : r' = h.nextRef + 1 := by
      have : some (h.nextRef + 1) = some r' := hr
      injection this with h'
      exact h'.symm
    subst hr'
    exact ⟨rfl, rfl, o.flat, Dict.get_set_self _ _ _⟩
  · have hno : ∀ o t,
        ¬(h.objs.get r = some o ∧ h.subs.get o.subRef = some t) :=
      fun o t hc => hok ⟨o, t, hc⟩
    rw [Heap.copyObj_stuck h r hno] at hr
    simp at hr

/-- Mutating an object whose root and sub-cell live at or above `n` leaves
all cells below `n` unchanged. -/
theorem Heap.mutate_agrees {σ τ : Type} (h : Heap σ τ) (r : Nat)
    (fl : σ) (t : τ) (n : Nat) (hr : n ≤ r)
    (hsub : ∀ o, h.objs.get r = some o → n ≤ o.subRef) :
    agreesBelow n h (h.mutate r fl t) := by
  cases ho : h.objs.get r with
  | none =>
      have he : h.mutate r fl t = h := by
        unfold Heap.mutate
        rw [ho]
      rw [he]
      exact agreesBelow_refl _ _
  | some o =>
      have he : h.mutate r fl t =
          { h with objs := h.objs.set r ⟨fl, o.subRef⟩,
                   subs := h.subs.set o.subRef t } := by
        unfold Heap.mutate
        rw [ho]
      rw [he]
      intro r' hr'
      have := hsub o ho
      constructor
      · exact Dict.get_set_ne _ _ _ _ (by omega)
      · exact Dict.get_set_ne _ _ _ _ (by omega)

/-- Copying a whole list of roots: cells below the starting bump are
untouched, the bump never lowers, and every returned root is a live fresh
object whose sub-cell reference is also fresh. -/
theorem Heap.copyMany_spec {σ τ : Type} :
    ∀ (roots : List Nat) (h : Heap σ τ),
      agreesBelow h.nextRef h (Heap.copyMany h roots).2 ∧
      h.nextRef ≤ (Heap.copyMany h roots).2.nextRef ∧
      ∀ r, some r ∈ (Heap.copyMany h roots).1 →
        h.nextRef ≤ r ∧
        ∃ o, (Heap.copyMany h roots).2.objs.get r = some o ∧
          h.nextRef ≤ o.subRef := by
  intro roots
  induction roots with
  | nil =>
      intro h
      exact ⟨agreesBelow_refl _ _, Nat.le_refl _, by simp [Heap.copyMany]⟩
  | cons r rest ih =>
      intro h
      obtain ⟨ha2, hn2, hrefs⟩ := ih (h.copyObj r).2
      have hc := Heap.copyObj_agrees h r
      have hcn := Heap.copyObj_nextRef_le h r
      have hstep : Heap.copyMany h (r :: rest) =
          ((h.copyObj r).1 :: (Heap.copyMany (h.copyObj r).2 rest).1,
            (Heap.copyMany (h.copyObj r).2 rest).2) := rfl
      rw [hstep]
      refine ⟨?_, le_trans hcn hn2, ?_⟩
      · exact agreesBelow_trans hc (agreesBelow_mono hcn ha2)
      · intro r' hr'
        rcases List.mem_cons.mp hr' with hr' | hr'
        · obtain ⟨hre, hnx, fl, hobj⟩ := Heap.copyObj_ret h r r' hr'.symm
          refine ⟨by omega, ⟨fl, h.nextRef⟩, ?_, Nat.le_refl _⟩
          have hlt : r' < (h.copyObj r).2.nextRef := by omega
          exact (ha2 r' hlt).1.trans hobj
        · obtain ⟨hge, o, ho, hos⟩ := hrefs r' hr'
          exact ⟨le_trans hcn hge, o, ho, le_trans hcn hos⟩

/-- Copy isolation for `get_by_id`: the call changes no observable entity
value, and arbitrarily mutating the returned copy (its flat attributes and
its owned sub-structure) still changes none. -/
theorem iso_get_by_id {σ τ : Type} (R : HeapRepo σ τ) (hwf : R.WF)
    (i : Nat) :
    (∀ j, HeapRepo.read (R.get_by_id i).2 j = R.read j) ∧
    (∀ r, (R.get_by_id i).1 = some r → ∀ fl t j,
      HeapRepo.read { (R.get_by_id i).2 with
        heap := (R.get_by_id i).2.heap.mutate r fl t } j = R.read j) := by
  unfold HeapRepo.get_by_id
  cases hent : R.entities.get i with
  | none =>
      refine ⟨fun j => rfl, ?_⟩
      intro r hr
      simp [hent] at hr
  | some r0 =>
      have hagc : agreesBelow R.heap.nextRef R.heap
          (R.heap.copyObj r0).2 := Heap.copyObj_agrees R.heap r0
      constructor
      · intro j
        simp only [hent]
        exact HeapRepo.read_congr R _ R.heap.nextRef hwf hagc j
      · intro r hr fl t j
        simp only [hent] at hr ⊢
        obtain ⟨hre, hnx, fl0, hobj⟩ := Heap.copyObj_ret R.heap r0 r hr
        have hmut : agreesBelow R.heap.nextRef (R.heap.copyObj r0).2
            ((R.heap.copyObj r0).2.mutate r fl t) := by
          refine Heap.mutate_agrees _ _ _ _ _ (by omega) ?_
          intro o ho
          rw [ho] at hobj
          have : o = ⟨fl0, R.heap.nextRef⟩ := by injection hobj
          rw [this]
        exact HeapRepo.read_congr R _ R.heap.nextRef hwf
          (agreesBelow_trans hagc hmut) j

/-- Copy isolation for `get_all`: same, for every copy in the returned
list. -/
theorem iso_get_all {σ τ : Type} (R : HeapRepo σ τ) (hwf : R.WF) :
    (∀ j, HeapRepo.read R.get_all.2 j = R.read j) ∧
    (∀ r, some r ∈ R.get_all.1 → ∀ fl t j,
      HeapRepo.read { R.get_all.2 with
        heap := R.get_all.2.heap.mutate r fl t } j = R.read j) := by
  obtain ⟨hag, hle, hrefs⟩ :=
    Heap.copyMany_spec (Dict.values R.entities) R.heap
  constructor
  · intro j
    exact HeapRepo.read_congr R _ R.heap.nextRef hwf hag j
  · intro r hr fl t j
    obtain ⟨hge, o, ho, hos⟩ := hrefs r hr
    have hmut : agreesBelow R.heap.nextRef
        (Heap.copyMany R.heap (Dict.values R.entities)).2
        ((Heap.copyMany R.heap (Dict.values R.entities)).2.mutate r fl t) := by
      refine Heap.mutate_agrees _ _ _ _ _ hge ?_
      intro o' ho'
      rw [ho'] at ho
      have : o' = o := by injection ho
      rw [this]
      exact hos
    exact HeapRepo.read_congr R _ R.heap.nextRef hwf
      (agreesBelow_trans hag hmut) j

/-- The repository after a `save` is well formed below `nextRef + 2`: all
previously stored graphs live below the old bump and the newly stored copy
occupies cells `nextRef` and `nextRef + 1`. -/
theorem afterSave_wfb {σ τ : Type} (R : HeapRepo σ τ) (hwf : R.WF)
    (K N' : Nat) (FL : σ) (t0 : τ) :
    HeapRepo.WFBound
      { entities := R.entities.set K (R.heap.nextRef + 1), next_id := N',
        heap := R.heap.afterSave FL t0 } (R.heap.nextRef + 2) := by
  intro p hp
  rcases Dict.mem_set hp with hp | hp
  · subst hp
    refine ⟨by omega, ⟨FL, R.heap.nextRef⟩, ?_, ?_⟩
    · show ((R.heap.objs.set (R.heap.nextRef + 1)
        ⟨FL, R.heap.nextRef⟩).set (R.heap.nextRef + 3)
          ⟨FL, R.heap.nextRef + 2⟩).get (R.heap.nextRef + 1) = _
      rw [Dict.get_set_ne _ _ _ _ (by omega)]
      exact Dict.get_set_self _ _ _
    · show R.heap.nextRef < R.heap.nextRef + 2
      omega
  · obtain ⟨hlt, o, ho, hos⟩ := hwf p hp
    refine ⟨by omega, o, ?_, by omega⟩
    show ((R.heap.objs.set (R.heap.nextRef + 1)
      ⟨FL, R.heap.nextRef⟩).set (R.heap.nextRef + 3)
        ⟨FL, R.heap.nextRef + 2⟩).get p.2 = some o
    rw [Dict.get_set_ne _ _ _ _ (by omega),
      Dict.get_set_ne _ _ _ _ (by omega)]
    exact ho

/-- Mutating the copy `save` returned (root `nextRef + 3`, sub-cell
`nextRef + 2`) leaves every stored entity value as the save left it. -/
theorem afterSave_mutate_iso {σ τ : Type} (R : HeapRepo σ τ) (hwf : R.WF)
    (K N' : Nat) (FL : σ) (t0 : τ) (fl : σ) (t : τ) :
    ∀ j, HeapRepo.read
      { entities := R.entities.set K (R.heap.nextRef + 1), next_id := N',
        heap := (R.heap.afterSave FL t0).mutate (R.heap.nextRef + 3) fl t }
      j =
    HeapRepo.read
      { entities := R.entities.set K (R.heap.nextRef + 1), next_id := N',
        heap := R.heap.afterSave FL t0 } j := by
  have hwfb := afterSave_wfb R hwf K N' FL t0
  have hobj : (R.heap.afterSave FL t0).objs.get (R.heap.nextRef + 3) =
      some ⟨FL, R.heap.nextRef + 2⟩ := by
    unfold Heap.afterSave
    exact Dict.get_set_self _ _ _
  have hmut := Heap.mutate_agrees (R.heap.afterSave FL t0)
    (R.heap.nextRef + 3) fl t (R.heap.nextRef + 2) (by omega)
    (fun o ho => by
      rw [hobj] at ho
      injection ho with ho'
      rw [← ho'])
  exact fun j => HeapRepo.read_congr _ _ (R.heap.nextRef + 2) hwfb hmut j

/-- Equation for `save` on an entity whose id is truthy. -/
theorem HeapRepo.save_eq_truthy {σ τ : Type} [EntityId σ]
    (R : HeapRepo σ τ) (a : Nat) (o : HeapObj σ) (t0 : τ)
    (ho : R.heap.objs.get a = some o)
    (hs : R.heap.subs.get o.subRef = some t0)
    (ht : idTruthy (EntityId.getId o.flat) = true) :
    R.save a =
      (some (R.heap.nextRef + 3),
        { entities := R.entities.set ((EntityId.getId o.flat).getD 0)
            (R.heap.nextRef + 1),
          next_id := R.next_id,
          heap := R.heap.afterSave o.flat t0 }) := by
  unfold HeapRepo.save
  split
  · rename_i heq
    rw [ho] at heq
    exact Option.noConfusion heq
  · rename_i o' heq
    rw [ho] at heq
    injection heq with ho'
    subst ho'
    split
    · rename_i heq2
      rw [hs] at heq2
      exact Option.noConfusion heq2
    · rename_i t' heq2
      rw [hs] at heq2
      injection heq2 with ht'
      subst ht'
      rw [if_pos ht]

/-- Equation for `save` on an entity whose id is falsy. -/
theorem HeapRepo.save_eq_falsy {σ τ : Type} [EntityId σ]
    (R : HeapRepo σ τ) (a : Nat) (o : HeapObj σ) (t0 : τ)
    (ho : R.heap.objs.get a = some o)
    (hs : R.heap.subs.get o.subRef = some t0)
    (ht : idTruthy (EntityId.getId o.flat) = false) :
    R.save a =
      (some (R.heap.nextRef + 3),
        { entities := R.entities.set R.next_id (R.heap.nextRef + 1),
          next_id := R.next_id + 1,
          heap := R.heap.afterSave (EntityId.setId o.flat R.next_id) t0 }) := by
  unfold HeapRepo.save
  split
  · rename_i heq
    rw [ho] at heq
    exact Option.noConfusion heq
  · rename_i o' heq
    rw [ho] at heq
    injection heq with ho'
    subst ho'
    split
    · rename_i heq2
      rw [hs] at heq2
      exact Option.noConfusion heq2
    · rename_i t' heq2
      rw [hs] at heq2
      injection heq2 with ht'
      subst ht'
      rw [if_neg (by rw [ht]; exact Bool.false_ne_true)]

/-- A failed `save` (dangling argument — a model artifact) is a no-op. -/
theorem HeapRepo.save_stuck {σ τ : Type} [EntityId σ]
    (R : HeapRepo σ τ) (a : Nat)
    (hno : ∀ o t, ¬(R.heap.objs.get a = some o ∧
      R.heap.subs.get o.subRef = some t)) :
    R.save a = (none, R) := by
  unfold HeapRepo.save
  split
  · rfl
  · rename_i o heq
    split
    · rfl
    · rename_i t heq2
      exact absurd ⟨heq, heq2⟩ (hno o t)

/-- Copy isolation for `save`: the caller's argument is copied before
storing, and the returned entity is a second copy — mutating the returned
object changes nothing the repository subsequently reports. -/
theorem iso_save {σ τ : Type} [EntityId σ] (R : HeapRepo σ τ)
    (hwf : R.WF) (a : Nat) :
    ∀ r, (R.save a).1 = some r → ∀ fl t j,
      HeapRepo.read { (R.save a).2 with
        heap := (R.save a).2.heap.mutate r fl t } j =
      HeapRepo.read (R.save a).2 j := by
  intro r hr fl t j
  by_cases hok : ∃ o t0, R.heap.objs.get a = some o ∧
      R.heap.subs.get o.subRef = some t0
  · obtain ⟨o, t0, ho, hs⟩ := hok
    cases ht : idTruthy (EntityId.getId o.flat) with
    | true =>
        rw [HeapRepo.save_eq_truthy R a o t0 ho hs ht] at hr ⊢
        have hr3 : r = R.heap.nextRef + 3 := by
          have : some (R.heap.nextRef + 3) = some r := hr
          injection this with h'
          exact h'.symm
        subst hr3
        exact afterSave_mutate_iso R hwf _ _ o.flat t0 fl t j
    | false =>
        rw [HeapRepo.save_eq_falsy R a o t0 ho hs ht] at hr ⊢
        have hr3 : r = R.heap.nextRef + 3 := by
          have : some (R.heap.nextRef + 3) = some r := hr
          injection this with h'
          exact h'.symm
        subst hr3
        exact afterSave_mutate_iso R hwf _ _
          (EntityId.setId o.flat R.next_id) t0 fl t j
  · have hno : ∀ o t0, ¬(R.heap.objs.get a = some o ∧
        R.heap.subs.get o.subRef = some t0) :=
      fun o t0 hc => hok ⟨o, t0, hc⟩
    rw [HeapRepo.save_stuck R a hno] at hr
    simp at hr

/-- C6: copy isolation in the heap model of the generic
`InMemoryRepository` (flat attributes `σ`, owned mutable sub-structure `τ`
— for bookings the children list, trivial for workshops and guardians).
For a well-formed repository: `get_by_id` and `get_all` change no
observable entity value, and mutating any object they return — its flat
attributes and its owned sub-structure alike — still changes none; the
entity `save` returns is likewise a fresh copy, distinct from the stored
one, so mutating it leaves every subsequent read as the save left it. -/
theorem deepcopy_isolation {σ τ : Type} [EntityId σ] (R : HeapRepo σ τ)
    (hwf : R.WF) :
    (∀ i j, HeapRepo.read (R.get_by_id i).2 j = R.read j) ∧
    (∀ i r, (R.get_by_id i).1 = some r → ∀ fl t j,
      HeapRepo.read { (R.get_by_id i).2 with
        heap := (R.get_by_id i).2.heap.mutate r fl t } j = R.read j) ∧
    (∀ j, HeapRepo.read R.get_all.2 j = R.read j) ∧
    (∀ r, some r ∈ R.get_all.1 → ∀ fl t j,
      HeapRepo.read { R.get_all.2 with
        heap := R.get_all.2.heap.mutate r fl t } j = R.read j) ∧
    (∀ a r, (R.save a).1 = some r → ∀ fl t j,
      HeapRepo.read { (R.save a).2 with
        heap := (R.save a).2.heap.mutate r fl t } j =
        HeapRepo.read (R.save a).2 j) :=
  ⟨fun i j => (iso_get_by_id R hwf i).1 j,
   fun i => (iso_get_by_id R hwf i).2,
   (iso_get_all R hwf).1,
   (iso_get_all R hwf).2,
   fun a => iso_save R hwf a⟩

/-- C6 witness: on the concrete booking repository, reading booking 1 gives
a fresh copy at ref 13; overwriting that copy's attributes and children
list leaves what the repository reports for booking 1 unchanged. -/
theorem deepcopy_isolation_witness :
    c6_repo.WF ∧
    (c6_repo.get_by_id 1).1 = some 13 ∧
    c6_repo.read 1 = some (c6_flat, [{ name := "A", age := 3 }]) ∧
    HeapRepo.read { (c6_repo.get_by_id 1).2 with
      heap := (c6_repo.get_by_id 1).2.heap.mutate 13
        { id := some 99, status := "corrupted" } [] } 1 = c6_repo.read 1 := by
  have hwf : c6_repo.WF := by
    intro p hp
    have hp1 : p = (1, 10) := by simpa [c6_repo] using hp
    subst hp1
    exact ⟨by decide, ⟨{ flat := c6_flat, subRef := 11 }, rfl, by decide⟩⟩
  have h := deepcopy_isolation c6_repo hwf
  exact ⟨hwf, rfl, rfl,
    h.2.1 1 13 rfl { id := some 99, status := "corrupted" } [] 1⟩

/-- The invariant holds after any whole trace. -/
theorem runTrace_inv (ops : List TraceOp) :
    ∀ t, TraceInv t → TraceInv (runTrace ops t) := by
  induction ops with
  | nil => intro t h; exact h
  | cons op rest ih =>
      intro t h
      exact ih (stepT op t) (stepT_inv op t h)

/-- C5: monotonic id assignment. Over any interleaving of repository
`save`/`delete` calls with `begin`/`commit`/`rollback`/scope exits starting
from a fresh Unit of Work, the ids assigned by `save` to newly inserted
entities of each repository form a strictly increasing sequence — an id is
never assigned twice, even after rollback of the transaction that assigned
it and even after deletes (`_next_id` is never snapshot-restored nor
decremented). -/
theorem assigned_ids_never_reused (ops : List TraceOp) :
    (runTrace ops initTraced).assignedW.Pairwise (· < ·) ∧
    (runTrace ops initTraced).assignedB.Pairwise (· < ·) ∧
    (runTrace ops initTraced).assignedG.Pairwise (· < ·) ∧
    (runTrace ops initTraced).assignedW.Nodup ∧
    (runTrace ops initTraced).assignedB.Nodup ∧
    (runTrace ops initTraced).assignedG.Nodup := by
  have h0 : TraceInv initTraced := by
    refine ⟨⟨?_, ?_⟩, ⟨?_, ?_⟩, ⟨?_, ?_⟩⟩ <;> simp [initTraced]
  have h := runTrace_inv ops initTraced h0
  obtain ⟨⟨hwp, _⟩, ⟨hbp, _⟩, ⟨hgp, _⟩⟩ := h
  exact ⟨hwp, hbp, hgp,
    hwp.imp Nat.ne_of_lt, hbp.imp Nat.ne_of_lt, hgp.imp Nat.ne_of_lt⟩

end Flowerpot
